import Mathlib

/-!
Shallow embedding of `custom_components/recycle_app/api.py` (FostPlusApi)
and proofs about its behaviour.

Conventions of the embedding:
* Network transport is modelled explicitly: a transport is a function from
  the attempt index to the pair (HTTP status code, parsed JSON body); a
  paginated server is a function from the page number to the optional
  response envelope for that page (`none` standing for "both attempts of
  `__get` failed", which makes `__get` return Python `None`).
* Python exceptions are modelled with `Except PyErr`; the typed domain
  error `FostPlusApiException(code)` is `PyErr.fostPlusApi code`, while
  `TypeError`, `KeyError`, `IndexError`, `ValueError` and `AttributeError`
  raised by the interpreter itself are the remaining constructors.
* Python dicts appearing in responses are modelled as association lists or
  as structures with `Option` fields for the keys the code reads with
  `.get`; a required subscript `d["k"]` on a missing key is `KeyError`.
* The unbounded `while True` pagination loop is given explicit fuel; the
  value `none` means the fuel ran out before the loop itself stopped.
-/

namespace RecycleApp

/-- Errors a call can raise: the typed domain error
`FostPlusApiException(code)` of `api.py`, and the untyped interpreter
errors that subscripting `None`, a missing dict key, a missing list index
or an invalid `int()`/`date()` argument raise in Python. -/
inductive PyErr where
  | fostPlusApi (code : String)
  | typeError
  | keyError
  | indexError
  | valueError
  | attributeError
  deriving DecidableEq, Repr

/-- `true` exactly on the typed domain error `FostPlusApiException`. -/
def PyErr.isDomain : PyErr → Bool
  | .fostPlusApi _ => true
  | _ => false

/-- A Gregorian calendar date, the result of Python `datetime.date(y, m, d)`. -/
structure PyDate where
  year : Int
  month : Int
  day : Int
  deriving DecidableEq, Repr

/-- Gregorian leap-year rule used by `datetime.date`. -/
def isLeapYear (y : Int) : Bool :=
  y % 4 == 0 && (y % 100 != 0 || y % 400 == 0)

/-- Number of days of month `m` in year `y`. -/
def daysInMonth (y m : Int) : Int :=
  if m = 2 then (if isLeapYear y then 29 else 28)
  else if m = 4 ∨ m = 6 ∨ m = 9 ∨ m = 11 then 30
  else 31

/-- `datetime.date(y, m, d)`: raises `ValueError` unless the arguments form
a valid date with year in `1..9999`. -/
def mkDate (y m d : Int) : Except PyErr PyDate :=
  if 1 ≤ y ∧ y ≤ 9999 ∧ 1 ≤ m ∧ m ≤ 12 ∧ 1 ≤ d ∧ d ≤ daysInMonth y m then
    .ok ⟨y, m, d⟩
  else
    .error .valueError

/-! ### Python string primitives

`str.split`, `str.strip`, `str.lower` and `int` are modelled on the
character list underlying the string, by structural recursion. -/

/-- Python `str.split(sep)` for a one-character separator, on the char
list: always at least one (possibly empty) group. -/
def pySplitChar (sep : Char) : List Char → List (List Char)
  | [] => [[]]
  | c :: rest =>
    let groups := pySplitChar sep rest
    if c = sep then [] :: groups
    else
      match groups with
      | [] => [[c]]
      | g :: gs => (c :: g) :: gs

/-- Python `s.split(sep)` for a one-character separator. -/
def pySplit (s : String) (sep : Char) : List String :=
  (pySplitChar sep s.data).map String.mk

/-- The whitespace characters `str.strip()` removes (the ASCII ones the
inputs here can contain). -/
def isPySpace (c : Char) : Bool :=
  c = ' ' ∨ c = '\t' ∨ c = '\n' ∨ c = '\r'

/-- Python `s.strip()`: drop whitespace from both ends. -/
def pyStrip (s : String) : String :=
  String.mk (((s.data.dropWhile isPySpace).reverse.dropWhile isPySpace).reverse)

/-- Lower-case one character (ASCII). -/
def pyLowerChar (c : Char) : Char :=
  if 'A' ≤ c ∧ c ≤ 'Z' then Char.ofNat (c.toNat + 32) else c

/-- Python `s.lower()` (ASCII). -/
def pyLower (s : String) : String :=
  String.mk (s.data.map pyLowerChar)

/-- Decimal digit test. -/
def isPyDigit (c : Char) : Bool :=
  '0' ≤ c ∧ c ≤ '9'

/-- Value of a digit list read in base 10. -/
def digitsVal (l : List Char) : Nat :=
  l.foldl (fun n c => 10 * n + (c.toNat - '0'.toNat)) 0

/-- Python `int(s)` on the decimal strings relevant here: an optional
minus sign followed by one or more digits; anything else raises
`ValueError`. -/
def pyInt (s : String) : Except PyErr Int :=
  match s.data with
  | [] => .error .valueError
  | '-' :: rest =>
    if rest ≠ [] ∧ rest.all isPyDigit then .ok (-(digitsVal rest : Int))
    else .error .valueError
  | l =>
    if l.all isPyDigit then .ok (digitsVal l : Int)
    else .error .valueError

/-- Subscripting a Python dict, `d[k]`: `KeyError` when the key is absent.
The dict is modelled as an association list on its first-occurrence keys. -/
def dictGet {β : Type} (d : List (String × β)) (k : String) : Except PyErr β :=
  match d.find? (fun kv => kv.1 = k) with
  | some kv => .ok kv.2
  | none => .error .keyError

/-- Python `d.get(k, default)` on an association-list dict. -/
def dictGetD {β : Type} (d : List (String × β)) (k : String) (dflt : β) : β :=
  match d.find? (fun kv => kv.1 = k) with
  | some kv => kv.2
  | none => dflt

/-- Python `d[k] = v` on an association-list dict: overwrite in place when
the key exists, append otherwise (insertion order is preserved). -/
def dictSet {κ β : Type} [DecidableEq κ] : List (κ × β) → κ → β → List (κ × β)
  | [], k, v => [(k, v)]
  | kv :: rest, k, v =>
    if kv.1 = k then (k, v) :: rest else kv :: dictSet rest k v

/-- Subscripting a Python list, `l[i]`: `IndexError` when out of range. -/
def listGet {β : Type} (l : List β) (i : Nat) : Except PyErr β :=
  match l.get? i with
  | some x => .ok x
  | none => .error .indexError

/-! ## Bounded-retry request primitives (`__get` / `__post`)

A transport maps the attempt index to (status code, parsed body). The
source loops `for _ in range(2)`, returning the parsed JSON of the first
response with status 200 and `None` if both attempts fail. The second
component of the result counts the requests actually issued. -/

/-- The body of the `for _ in range(2)` retry loop shared by `__get` and
`__post`: `k` attempts remain, `n` attempts were already issued. -/
def requestLoop {α : Type} (transport : Nat → Int × α) : Nat → Nat → Option α × Nat
  | 0, n => (none, n)
  | k + 1, n =>
    let r := transport n
    if r.1 = 200 then (some r.2, n + 1) else requestLoop transport k (n + 1)

/-- `__get(action)`: up to two attempts, parsed body of the first success,
`None` after two failures; also reports how many requests were issued. -/
def pyGet {α : Type} (transport : Nat → Int × α) : Option α × Nat :=
  requestLoop transport 2 0

/-- `__post(action, data)`: same retry loop as `__get`. -/
def pyPost {α : Type} (transport : Nat → Int × α) : Option α × Nat :=
  requestLoop transport 2 0

/-! ## Pagination (`__load_all`) -/

/-- The response envelope of a paginated endpoint: the `items` and `pages`
fields, each `none` when the key is missing from the JSON object. -/
structure PageResponse (α : Type) where
  items : Option (List α)
  pages : Option Int
  deriving Repr, DecidableEq

/-- The `while True` loop of `__load_all`. `fetch p` is the response of
`__get` for `&page=p` (`none` both for a failed request and for a falsy
body). Breaks before accumulating when the response is absent or misses
`items` or `pages`; otherwise accumulates and breaks once the incremented
page number exceeds the declared page count. Also records the trace of
page numbers actually requested. Returns `none` when the fuel runs out
before the loop stops. -/
def loadAllAux {α : Type} (fetch : Nat → Option (PageResponse α)) :
    Nat → Nat → List α → List Nat → Option (List α × List Nat)
  | 0, _, _, _ => none
  | fuel + 1, page, acc, trace =>
    match fetch page with
    | none => some (acc, trace ++ [page])
    | some r =>
      match r.items, r.pages with
      | some its, some pgs =>
        let acc := acc ++ its
        if (page : Int) + 1 > pgs then some (acc, trace ++ [page])
        else loadAllAux fetch fuel (page + 1) acc (trace ++ [page])
      | _, _ => some (acc, trace ++ [page])

/-- `__load_all(action, size)`: the accumulated `items` of the fetched
pages, starting from page 1. -/
def loadAll {α : Type} (fetch : Nat → Option (PageResponse α)) (fuel : Nat) :
    Option (List α) :=
  (loadAllAux fetch fuel 1 [] []).map (fun x => x.1)

/-- The page numbers `__load_all` requests, in order. -/
def loadAllTrace {α : Type} (fetch : Nat → Option (PageResponse α)) (fuel : Nat) :
    Option (List Nat) :=
  (loadAllAux fetch fuel 1 [] []).map (fun x => x.2)

/-! ## Modelled from the spec: the allow-list `COLLECTION_TYPES` -/

/-- Modelled from the spec: `COLLECTION_TYPES`, imported by `api.py` from
`const.py`, which is not among the provided sources. The spec fixes only
that it is a "fixed allow-list of recognized collection types" of logo-id
strings; representative members stand in for the real ones, and every
theorem below that involves the allow-list holds independently of its
concrete members. -/
def COLLECTION_TYPES : List String :=
  ["gft", "glas", "pmd", "papier", "restafval", "textiel"]

/-! ## `get_zip_code` -/

/-- One item of the `zipcodes?q=...` response: the `id` and `code` fields
and the list of name dicts (one association list per name variant). -/
structure ZipCodeItem where
  id : String
  code : String
  names : List (List (String × String))
  deriving Repr, DecidableEq

/-- The `zipcodes?q=...` response object: its `items` key (`none` when the
key is missing). -/
structure ZipResponse where
  items : Option (List ZipCodeItem)
  deriving Repr, DecidableEq

/-- The inner loop of the `get_zip_code` comprehension: for each name dict
of one item, the pair `(item["id"], item["code"] ++ " - " ++
name[language])`; a name dict without the language raises `KeyError`. -/
def zipNamePairs (language id code : String) :
    List (List (String × String)) → Except PyErr (List (String × String))
  | [] => .ok []
  | nm :: nms => do
    let n ← dictGet nm language
    let tl ← zipNamePairs language id code nms
    .ok ((id, code ++ " - " ++ n) :: tl)

/-- The outer loop of the `get_zip_code` comprehension, over the items. -/
def zipCodePairs (language : String) :
    List ZipCodeItem → Except PyErr (List (String × String))
  | [] => .ok []
  | item :: rest => do
    let hd ← zipNamePairs language item.id item.code item.names
    let tl ← zipCodePairs language rest
    .ok (hd ++ tl)

/-- `get_zip_code(zip_code, language)`, applied to the `__get` result:
subscripting `result["items"]` raises `TypeError` when the result is
`None` and `KeyError` when the key is missing, then the comprehension
builds the `(id, code - name)` pairs. -/
def getZipCode (language : String) (result : Option ZipResponse) :
    Except PyErr (List (String × String)) :=
  match result with
  | none => .error .typeError
  | some r =>
    match r.items with
    | none => .error .keyError
    | some items => zipCodePairs language items

/-! ## `get_street` -/

/-- One item of the `streets?...` response: the `id` field and the dict of
localized names. -/
structure StreetItem where
  id : String
  names : List (String × String)
  deriving Repr, DecidableEq

/-- The `streets?...` response object: its declared `total` and its
`items`. -/
structure StreetsResponse where
  total : Int
  items : List StreetItem
  deriving Repr, DecidableEq

/-- The generator inside `next(...)`: the first item whose
`names[language].strip().lower()` equals the normalized query, `none` if
no item matches; a missing language key raises `KeyError`. -/
def findStreetMatch (language query : String) :
    List StreetItem → Except PyErr (Option StreetItem)
  | [] => .ok none
  | i :: rest => do
    let n ← dictGet i.names language
    if pyLower (pyStrip n) = query then .ok (some i)
    else findStreetMatch language query rest

/-- `get_street(street, zip_code_id, language)`, applied to the `__post`
result. The query is normalized with `strip().lower()` before the request.
Subscripting `result["total"]` on `None` raises `TypeError`. When the
declared `total` differs from 1, the first exact (trimmed,
case-insensitive) match is returned and `FostPlusApiException
("invalid_streetname")` is raised when there is none; when `total` equals
1, `items[0]` is returned unconditionally. -/
def getStreet (street _zipCodeId language : String)
    (result : Option StreetsResponse) : Except PyErr (String × String) :=
  let query := pyLower (pyStrip street)
  match result with
  | none => .error .typeError
  | some r =>
    if r.total ≠ 1 then do
      let found ← findStreetMatch language query r.items
      match found with
      | none => .error (.fostPlusApi "invalid_streetname")
      | some item => do
        let n ← dictGet item.names language
        .ok (item.id, n)
    else do
      let first ← listGet r.items 0
      let n ← dictGet first.names language
      .ok (first.id, n)

/-! ## `get_recycling_parks` -/

/-- One item of the recycling-parks response. `Option` fields are the keys
the code reads with `.get` (defaulting); `displayName`, `exceptionDays`
and `openingPeriods` are subscripted directly. The opaque payloads of
exception days and opening periods are kept as strings; coordinate
numbers are modelled as integers, their numeric value being irrelevant
here. -/
structure ParkItem where
  id : Option String
  displayName : List (String × String)
  exceptionDays : List String
  openingPeriods : List String
  coordinates : Option (List Int)
  street : Option String
  houseNumber : Option String
  zipcode : Option String
  city : Option String
  accessDescription : List (String × String)
  specificRules : List (String × String)
  deriving Repr, DecidableEq

/-- The recycling-parks response object: its `items` key read with
`.get("items", [])`. -/
structure ParksResponse where
  items : Option (List ParkItem)
  deriving Repr, DecidableEq

/-- The normalized record `get_recycling_parks` builds per park. -/
structure RecyclingPark where
  name : String
  exceptions : List String
  periods : List String
  latitude : Option Int
  longitude : Option Int
  location : String
  description : String
  deriving Repr, DecidableEq

/-- `" ".join(filter(None, parts))`: drop the empty strings, join the rest. -/
def joinNonEmpty (sep : String) (parts : List String) : String :=
  String.intercalate sep (parts.filter (fun s => s ≠ ""))

/-- The body of the `for item in response.get("items", [])` loop: the
coordinate safeguard (a truthy two-element list yields `(lon, lat)`,
anything else `(None, None)`), the `displayName[language]` lookup (which
can raise `KeyError`), and the joined location and description strings. -/
def processParkItem (language : String)
    (acc : List (Option String × RecyclingPark)) (item : ParkItem) :
    Except PyErr (List (Option String × RecyclingPark)) := do
  let lonlat : Option Int × Option Int :=
    match item.coordinates with
    | some l =>
      if l ≠ [] then
        (if l.length = 2 then (l.get? 0, l.get? 1) else (none, none))
      else (none, none)
    | none => (none, none)
  let n ← dictGet item.displayName language
  let loc := joinNonEmpty " "
    [item.street.getD "", item.houseNumber.getD "",
     item.zipcode.getD "", item.city.getD ""]
  let desc := joinNonEmpty "\n\n"
    [dictGetD item.accessDescription language "",
     dictGetD item.specificRules language ""]
  .ok (dictSet acc item.id
    ⟨n, item.exceptionDays, item.openingPeriods, lonlat.2, lonlat.1, loc, desc⟩)

/-- Iterate `processParkItem` over the items in order. -/
def processParks (language : String) (acc : List (Option String × RecyclingPark)) :
    List ParkItem → Except PyErr (List (Option String × RecyclingPark))
  | [] => .ok acc
  | item :: rest => do
    let acc ← processParkItem language acc item
    processParks language acc rest

/-- `get_recycling_parks(zip_code_id, language)`, applied to the `__get`
result: `response.get("items", [])` on `None` raises `AttributeError`;
otherwise each item is normalized into the park dictionary. -/
def getRecyclingParks (language : String) (response : Option ParksResponse) :
    Except PyErr (List (Option String × RecyclingPark)) :=
  match response with
  | none => .error .attributeError
  | some r => processParks language [] (r.items.getD [])

/-! ## `get_fractions` and `get_collections` -/

/-- The `logo` object of a fraction: its `id` key (`none` when missing). -/
structure FractionLogo where
  id : Option String
  deriving Repr, DecidableEq

/-- The `fraction` object of a collection record: its optional `logo`, and
the `color` and localized `name` read by `get_fractions`. -/
structure FractionInfo where
  logo : Option FractionLogo
  color : String
  name : List (String × String)
  deriving Repr, DecidableEq

/-- The `exception` object of a collection record: its `replacedBy` key
(`none` when missing). -/
structure CollectionException where
  replacedBy : Option String
  deriving Repr, DecidableEq

/-- One collection record: the keys `get_fractions` and `get_collections`
read, each `none` when missing from the JSON object. -/
structure CollectionItem where
  exception : Option CollectionException
  fraction : Option FractionInfo
  timestamp : Option String
  deriving Repr, DecidableEq

/-- The dict comprehension of `get_fractions`: keyed by
`f["fraction"]["logo"]["id"]`, filtered by `"logo" in f["fraction"]` and
membership of the logo id in `COLLECTION_TYPES`; `f["fraction"]` missing
raises `KeyError`, as do a logo without `id` and a name dict without the
language. -/
def fractionsDict (language : String) :
    List CollectionItem → List (String × (String × String)) →
    Except PyErr (List (String × (String × String)))
  | [], acc => .ok acc
  | f :: rest, acc =>
    match f.fraction with
    | none => .error .keyError
    | some fr =>
      match fr.logo with
      | none => fractionsDict language rest acc
      | some lg =>
        match lg.id with
        | none => .error .keyError
        | some i =>
          if i ∈ COLLECTION_TYPES then do
            let nm ← dictGet fr.name language
            fractionsDict language rest (dictSet acc i (fr.color, nm))
          else fractionsDict language rest acc

/-- `get_fractions(...)`, applied to the list `__load_all` produced for the
two-year window. -/
def getFractions (language : String) (items : List CollectionItem) :
    Except PyErr (List (String × (String × String))) :=
  fractionsDict language items []

/-- `item.get("exception", {}).get("replacedBy", None)` is truthy: the
record is marked as replaced by another event. -/
def isReplaced (item : CollectionItem) : Bool :=
  match item.exception with
  | some e =>
    match e.replacedBy with
    | some s => s ≠ ""
    | none => false
  | none => false

/-- `item.get("fraction", {}).get("logo", {}).get("id", None)`. -/
def fractionIdOf (item : CollectionItem) : Option String :=
  match item.fraction with
  | some fr =>
    match fr.logo with
    | some lg => lg.id
    | none => none
  | none => none

/-- The first segment of the timestamp after
`item.get("timestamp", "").split("T")[0].split("-")`. -/
def timestampParts (item : CollectionItem) : List String :=
  pySplit ((pySplit (item.timestamp.getD "") 'T').headD "") '-' 

/-- The body of the `for item in collections` loop of `get_collections`:
skip replaced records, skip records whose fraction id is not in the
allow-list (a missing id is never in it), skip records whose timestamp
starts with an empty segment, then build the date — `int()` on a
non-numeric segment and `date()` on an out-of-range triple raise
`ValueError`, a missing segment raises `IndexError` — and append it to the
fraction entry of the defaultdict unless already present. -/
def processItem (acc : List (String × List PyDate)) (item : CollectionItem) :
    Except PyErr (List (String × List PyDate)) :=
  if isReplaced item then .ok acc
  else
    match fractionIdOf item with
    | none => .ok acc
    | some fid =>
      if fid ∈ COLLECTION_TYPES then do
        let parts := timestampParts item
        let p0 ← listGet parts 0
        if p0 = "" then .ok acc
        else do
          let y ← pyInt p0
          let p1 ← listGet parts 1
          let m ← pyInt p1
          let p2 ← listGet parts 2
          let d ← pyInt p2
          let collectionDate ← mkDate y m d
          let fraction := dictGetD acc fid []
          if collectionDate ∈ fraction then .ok acc
          else .ok (dictSet acc fid (fraction ++ [collectionDate]))
      else .ok acc

/-- Iterate `processItem` over the records in order, starting from the
empty defaultdict. -/
def processCollections (acc : List (String × List PyDate)) :
    List CollectionItem → Except PyErr (List (String × List PyDate))
  | [] => .ok acc
  | item :: rest => do
    let acc ← processItem acc item
    processCollections acc rest

/-- `get_collections(...)`, applied to the single `__get` result:
`self.__get(...)["items"]` raises `TypeError` on `None` and `KeyError`
when the envelope has no `items` key; the records of that one response are
then folded into the calendar. -/
def getCollections (response : Option (PageResponse CollectionItem)) :
    Except PyErr (List (String × List PyDate)) :=
  match response with
  | none => .error .typeError
  | some r =>
    match r.items with
    | none => .error .keyError
    | some items => processCollections [] items

/-- `get_collections` against a paginated server: the source issues one
request without a `page` parameter, whose envelope is the first page. -/
def getCollectionsFromServer
    (server : Nat → Option (PageResponse CollectionItem)) :
    Except PyErr (List (String × List PyDate)) :=
  getCollections (server 1)

/-- Modelled from the spec: "Fetches paginated collection records for the
window" — the collection calendar as the spec describes it, retrieving the
window with the paginated loader `__load_all` and applying the same
per-record processing to the concatenated records. Used only to compare
the source behaviour of `get_collections` against the spec sentence. -/
def getCollectionsPaginatedSpec
    (server : Nat → Option (PageResponse CollectionItem)) (fuel : Nat) :
    Option (Except PyErr (List (String × List PyDate))) :=
  (loadAll server fuel).map (processCollections [])


/-! ## Pagination lemmas -/

/-- Helper: from any start page `s ≤ P`, a run of pages `s..P` that each
declare `P` pages and carry their items drives the loop to the last page,
accumulating the items and the trace of requested pages in order. -/
theorem loadAllAux_run {α : Type} (fetch : Nat → Option (PageResponse α))
    (P : Nat) (itemsOf : Nat → List α)
    (hwf : ∀ p, 1 ≤ p → p ≤ P → fetch p = some ⟨some (itemsOf p), some (P : Int)⟩) :
    ∀ fuel s acc trace, 1 ≤ s → s ≤ P → P - s < fuel →
      loadAllAux fetch fuel s acc trace =
        some (acc ++ (List.range' s (P - s + 1)).flatMap itemsOf,
          trace ++ List.range' s (P - s + 1)) := by
  intro fuel
  induction fuel with
  | zero => intro s acc trace _ _ h3; omega
  | succ fuel ih =>
    intro s acc trace h1 h2 h3
    simp only [loadAllAux, hwf s h1 h2]
    by_cases hs : s = P
    · subst hs
      rw [if_pos (by omega)]
      rw [show s - s + 1 = 1 from by omega, List.range'_one]
      simp
    · rw [if_neg (by omega)]
      rw [ih (s + 1) (acc ++ itemsOf s) (trace ++ [s]) (by omega) (by omega)
        (by omega)]
      rw [show P - s = (P - (s + 1)) + 1 from by omega]
      simp [List.range'_succ, List.append_assoc]

/-- Helper: a run of well-formed pages `1..k-1` followed by a bad page `k`
(absent, or missing `items` or `pages`) makes the loop return the items
accumulated so far, after requesting pages `1..k`. -/
theorem loadAllAux_stops_at_bad_page {α : Type}
    (fetch : Nat → Option (PageResponse α)) (P k : Nat) (itemsOf : Nat → List α)
    (hwf : ∀ p, 1 ≤ p → p < k → fetch p = some ⟨some (itemsOf p), some (P : Int)⟩)
    (hk : k ≤ P)
    (hbad : fetch k = none ∨
      ∃ r, fetch k = some r ∧ (r.items = none ∨ r.pages = none)) :
    ∀ fuel s acc trace, 1 ≤ s → s ≤ k → k - s < fuel →
      loadAllAux fetch fuel s acc trace =
        some (acc ++ (List.range' s (k - s)).flatMap itemsOf,
          trace ++ List.range' s (k - s + 1)) := by
  intro fuel
  induction fuel with
  | zero => intro s acc trace _ _ h3; omega
  | succ fuel ih =>
    intro s acc trace h1 h2 h3
    by_cases hs : s = k
    · subst hs
      rw [show s - s = 0 from by omega, show (0 : Nat) + 1 = 1 from rfl,
        List.range'_zero, List.range'_one]
      rcases hbad with hnone | ⟨r, hr, hior⟩
      · simp [loadAllAux, hnone]
      · obtain ⟨ri, rp⟩ := r
        rcases hior with hi | hp
        · simp only at hi
          subst hi
          cases rp <;> simp [loadAllAux, hr]
        · simp only at hp
          subst hp
          cases ri <;> simp [loadAllAux, hr]
    · have hsk : s < k := lt_of_le_of_ne h2 hs
      simp only [loadAllAux, hwf s h1 hsk]
      rw [if_neg (by omega)]
      rw [ih (s + 1) (acc ++ itemsOf s) (trace ++ [s]) (by omega) (by omega)
        (by omega)]
      rw [show k - s = (k - (s + 1)) + 1 from by omega]
      simp [List.range'_succ, List.append_assoc]

/-- C2: for every action and every page sequence in which each page
declares the same total page count `P` (with at least one page) and pages
`1..P` each carry an items list, `__load_all` returns exactly the
concatenation of the items of pages `1..P` in page order, and the pages it
requests are exactly `1, 2, ..., P` — no page fetched twice, none skipped,
none beyond `P` — so the loop terminates within `P` iterations (any fuel
of at least `P` suffices and is not consumed further). -/
theorem loadAll_concatenates_declared_pages {α : Type}
    (fetch : Nat → Option (PageResponse α)) (P fuel : Nat)
    (itemsOf : Nat → List α) (hP : 1 ≤ P) (hfuel : P ≤ fuel)
    (hwf : ∀ p, 1 ≤ p → p ≤ P →
      fetch p = some ⟨some (itemsOf p), some (P : Int)⟩) :
    loadAll fetch fuel = some ((List.range' 1 P).flatMap itemsOf) ∧
    loadAllTrace fetch fuel = some (List.range' 1 P) := by
  have h := loadAllAux_run fetch P itemsOf hwf fuel 1 [] [] le_rfl hP (by omega)
  rw [show P - 1 + 1 = P from by omega] at h
  rw [loadAll, loadAllTrace, h]
  simp

/-- Witness for C2: a concrete two-page server, fetched with fuel 2,
yields the two pages concatenated and the trace `[1, 2]`. -/
theorem loadAll_concatenates_declared_pages_witness :
    loadAll
      (fun p => if p = 1 then some ⟨some [10], some 2⟩
        else if p = 2 then some ⟨some [20], some 2⟩ else none) 2
      = some [10, 20] ∧
    loadAllTrace
      (fun p => if p = 1 then some ⟨some [10], some 2⟩
        else if p = 2 then some ⟨some [20], some 2⟩ else none) 2
      = some [1, 2] := by
  have h := loadAll_concatenates_declared_pages
    (fun p => if p = 1 then some ⟨some [10], some 2⟩
      else if p = 2 then some ⟨some [20], some 2⟩ else none)
    2 2 (fun p => [10 * p]) (by omega) (by omega)
    (by intro p h1 h2; interval_cases p <;> rfl)
  simpa using h

/-- Counterexample to C4: page 1 is well-formed (one item, three declared
pages) and page 2 comes back absent, yet `__load_all` returns the partial
list of the items accumulated from page 1 — neither an empty nor an
absent result, contrary to the claim that partial data is dropped. -/
theorem loadAll_partial_page_counterexample :
    loadAll (fun p => if p = 1 then some ⟨some [10], some 3⟩ else none) 5
      = some [10] ∧
    some [10] ≠ some ([] : List Nat) ∧
    some [10] ≠ (none : Option (List Nat)) := by decide

/-- C4 as amended: for every paginated fetch in which pages `1..k-1` are
well-formed (each declaring `P ≥ k` total pages) and page `k` comes back
absent or malformed (missing the `items` or `pages` field), `__load_all`
stops after requesting pages `1..k` and returns the partial concatenation
of the items of pages `1..k-1` — the accumulated partial list is returned
to the caller, not dropped. -/
theorem loadAll_returns_partial_prefix {α : Type}
    (fetch : Nat → Option (PageResponse α)) (P k fuel : Nat)
    (itemsOf : Nat → List α) (h1 : 1 ≤ k) (hk : k ≤ P) (hfuel : k ≤ fuel)
    (hwf : ∀ p, 1 ≤ p → p < k →
      fetch p = some ⟨some (itemsOf p), some (P : Int)⟩)
    (hbad : fetch k = none ∨
      ∃ r, fetch k = some r ∧ (r.items = none ∨ r.pages = none)) :
    loadAll fetch fuel = some ((List.range' 1 (k - 1)).flatMap itemsOf) ∧
    loadAllTrace fetch fuel = some (List.range' 1 k) := by
  have h := loadAllAux_stops_at_bad_page fetch P k itemsOf hwf hk hbad
    fuel 1 [] [] le_rfl h1 (by omega)
  rw [show k - 1 + 1 = k from by omega] at h
  rw [loadAll, loadAllTrace, h]
  simp

/-- Witness for C4 as amended: page 1 carries `[10]` declaring three
pages, page 2 is absent; the loader returns `some [10]` after requesting
pages 1 and 2. -/
theorem loadAll_returns_partial_prefix_witness :
    loadAll (fun p => if p = 1 then some ⟨some [10], some 3⟩ else none) 5
      = some [10] ∧
    loadAllTrace (fun p => if p = 1 then some ⟨some [10], some 3⟩ else none) 5
      = some [1, 2] := by
  have h := loadAll_returns_partial_prefix
    (fun p => if p = 1 then some ⟨some [10], some 3⟩ else none)
    3 2 5 (fun p => [10 * p]) (by omega) (by omega) (by omega)
    (by intro p hp1 hp2; interval_cases p; rfl)
    (Or.inl rfl)
  simpa using h

/-! ## Theorems about the request primitives -/

/-- C7: through `__get` and `__post`, at most two attempts are issued;
when both attempts return a non-200 status the primitive returns `None`
(after exactly two requests) rather than raising; a first attempt with
status 200 returns its parsed body immediately after a single request;
and a success on the second attempt returns that body after exactly two
requests. The loop contains no delay: the attempts are consecutive. -/
theorem request_primitives_retry_twice_then_absent {α : Type}
    (transport : Nat → Int × α) :
    ((pyGet transport).2 ≤ 2 ∧ (pyPost transport).2 ≤ 2) ∧
    ((transport 0).1 ≠ 200 → (transport 1).1 ≠ 200 →
      pyGet transport = (none, 2) ∧ pyPost transport = (none, 2)) ∧
    ((transport 0).1 = 200 →
      pyGet transport = (some (transport 0).2, 1) ∧
      pyPost transport = (some (transport 0).2, 1)) ∧
    ((transport 0).1 ≠ 200 → (transport 1).1 = 200 →
      pyGet transport = (some (transport 1).2, 2) ∧
      pyPost transport = (some (transport 1).2, 2)) := by
  refine ⟨⟨?_, ?_⟩, ?_, ?_, ?_⟩ <;>
    simp only [pyGet, pyPost, requestLoop] <;>
    by_cases h0 : (transport 0).1 = 200 <;>
    by_cases h1 : (transport 1).1 = 200 <;>
    simp [h0, h1]

/-- Witness for C7: a transport failing with 500 then succeeding with 200
on the second attempt yields that body after two requests. -/
theorem request_primitives_retry_twice_then_absent_witness :
    pyGet (fun n => if n = 0 then ((500 : Int), 7) else ((200 : Int), 9))
      = (some 9, 2) ∧
    pyGet (fun _ => ((503 : Int), 7)) = (none, 2) := by
  have h1 := (request_primitives_retry_twice_then_absent
    (fun n => if n = 0 then ((500 : Int), 7) else ((200 : Int), 9))).2.2.2
    (by simp) (by simp)
  have h2 := (request_primitives_retry_twice_then_absent
    (fun _ => ((503 : Int), 7))).2.1 (by simp) (by simp)
  exact ⟨by simpa using h1.1, h2.1⟩

/-! ## Theorems about `get_street` -/

/-- C5: when the response declares `total = 1` and carries that sole item,
`get_street` returns the item id and its localized name unconditionally —
the statement imposes no relation between the localized name and the
queried street string, so the exact-match check is skipped even when they
differ (the witness below uses a non-matching name). -/
theorem getStreet_single_result_unconditional
    (street zipCodeId language : String) (item : StreetItem) (total : Int)
    (nm : String) (htotal : total = 1)
    (hname : dictGet item.names language = .ok nm) :
    getStreet street zipCodeId language (some ⟨total, [item]⟩)
      = .ok (item.id, nm) := by
  subst htotal
  simp [getStreet, listGet, hname, bind, Except.bind]

/-- Witness for C5: one declared result named "Grand Place" for the query
"rue neuve": returned unchanged, no error, although the names differ. -/
theorem getStreet_single_result_unconditional_witness :
    getStreet "rue neuve" "zip-1" "fr"
      (some ⟨1, [⟨"street-9", [("fr", "Grand Place")]⟩]⟩)
      = .ok ("street-9", "Grand Place") :=
  getStreet_single_result_unconditional "rue neuve" "zip-1" "fr"
    ⟨"street-9", [("fr", "Grand Place")]⟩ 1 "Grand Place" rfl rfl

/-- Helper: when every candidate carries a localized name whose trimmed,
lower-cased form differs from the query, the match search finds nothing. -/
theorem findStreetMatch_none (language query : String)
    (items : List StreetItem)
    (h : ∀ i ∈ items, ∃ nm, dictGet i.names language = .ok nm ∧
      pyLower (pyStrip nm) ≠ query) :
    findStreetMatch language query items = .ok none := by
  induction items with
  | nil => rfl
  | cons i rest ih =>
    obtain ⟨nm, hnm, hne⟩ := h i (by simp)
    simp [findStreetMatch, hnm, bind, Except.bind, hne,
      ih (fun j hj => h j (by simp [hj]))]

/-- Helper: the match search returns the first candidate whose trimmed,
lower-cased localized name equals the query. -/
theorem findStreetMatch_first (language query : String)
    (pre : List StreetItem) (item : StreetItem) (post : List StreetItem)
    (nm : String)
    (hpre : ∀ i ∈ pre, ∃ nm2, dictGet i.names language = .ok nm2 ∧
      pyLower (pyStrip nm2) ≠ query)
    (hnm : dictGet item.names language = .ok nm)
    (heq : pyLower (pyStrip nm) = query) :
    findStreetMatch language query (pre ++ item :: post) = .ok (some item) := by
  induction pre with
  | nil => simp [findStreetMatch, hnm, bind, Except.bind, heq]
  | cons i rest ih =>
    obtain ⟨nm2, h2, hne⟩ := hpre i (by simp)
    simp [findStreetMatch, h2, bind, Except.bind, hne,
      ih (fun j hj => hpre j (by simp [hj]))]

/-- C6: when the response contains two or more candidates (and declares
that count as its `total`): if none of the candidates has a trimmed,
case-insensitive localized name equal to the trimmed, case-insensitive
query, `get_street` raises the domain error with machine-readable code
"invalid_streetname"; and if some candidate matches exactly, the first
such candidate has its `(id, localized name)` returned instead. -/
theorem getStreet_multi_candidate_disambiguation
    (street zipCodeId language : String) (r : StreetsResponse)
    (htotal : r.total = (r.items.length : Int)) (hlen : 2 ≤ r.items.length) :
    ((∀ i ∈ r.items, ∃ nm, dictGet i.names language = .ok nm ∧
        pyLower (pyStrip nm) ≠ pyLower (pyStrip street)) →
      getStreet street zipCodeId language (some r)
        = .error (.fostPlusApi "invalid_streetname")) ∧
    (∀ pre item post nm, r.items = pre ++ item :: post →
      (∀ i ∈ pre, ∃ nm2, dictGet i.names language = .ok nm2 ∧
        pyLower (pyStrip nm2) ≠ pyLower (pyStrip street)) →
      dictGet item.names language = .ok nm →
      pyLower (pyStrip nm) = pyLower (pyStrip street) →
      getStreet street zipCodeId language (some r) = .ok (item.id, nm)) := by
  have hne1 : r.total ≠ 1 := by rw [htotal]; omega
  constructor
  · intro hall
    have hfind := findStreetMatch_none language (pyLower (pyStrip street))
      r.items hall
    simp [getStreet, hne1, hfind, bind, Except.bind]
  · intro pre item post nm hsplit hpre hnm heq
    have hfind : findStreetMatch language (pyLower (pyStrip street)) r.items
        = .ok (some item) := by
      rw [hsplit]
      exact findStreetMatch_first language (pyLower (pyStrip street))
        pre item post nm hpre hnm heq
    simp [getStreet, hne1, hfind, bind, Except.bind, hnm]

/-- Witness for C6: with candidates "Grand Place" and "Rue Neuve" for the
query "  Rue Neuve " (declared total 2), the exact match is returned; with
candidates "Grand Place" and "Avenue Louise" for the query "rue neuve",
the domain error with code "invalid_streetname" is raised. -/
theorem getStreet_multi_candidate_disambiguation_witness :
    getStreet "  Rue Neuve " "zip-1" "fr"
      (some ⟨2, [⟨"s1", [("fr", "Grand Place")]⟩,
        ⟨"s2", [("fr", "Rue Neuve")]⟩]⟩)
      = .ok ("s2", "Rue Neuve") ∧
    getStreet "rue neuve" "zip-1" "fr"
      (some ⟨2, [⟨"s1", [("fr", "Grand Place")]⟩,
        ⟨"s3", [("fr", "Avenue Louise")]⟩]⟩)
      = .error (.fostPlusApi "invalid_streetname") := by
  constructor
  · exact (getStreet_multi_candidate_disambiguation "  Rue Neuve " "zip-1"
      "fr" ⟨2, [⟨"s1", [("fr", "Grand Place")]⟩, ⟨"s2", [("fr", "Rue Neuve")]⟩]⟩
      rfl (by decide)).2
      [⟨"s1", [("fr", "Grand Place")]⟩] ⟨"s2", [("fr", "Rue Neuve")]⟩ []
      "Rue Neuve" rfl
      (by intro i hi; simp at hi; subst hi
          exact ⟨"Grand Place", rfl, by decide⟩)
      rfl (by decide)
  · exact (getStreet_multi_candidate_disambiguation "rue neuve" "zip-1"
      "fr" ⟨2, [⟨"s1", [("fr", "Grand Place")]⟩,
        ⟨"s3", [("fr", "Avenue Louise")]⟩]⟩
      rfl (by decide)).1
      (by intro i hi; simp at hi
          rcases hi with hi | hi <;> subst hi
          · exact ⟨"Grand Place", rfl, by decide⟩
          · exact ⟨"Avenue Louise", rfl, by decide⟩)

/-- C10: when the response declares a `total` different from 1 and its
items list is empty, `get_street` raises the same `FostPlusApiException`
with code "invalid_streetname" as a failed disambiguation (never an empty
or absent result); and the single-result branch is selected by the
declared `total` alone: with `total = 1` the head of the items list is
returned unconditionally even when several items are present, while with
`total ≠ 1` even a sole non-matching item leads to the domain error
instead of being picked. -/
theorem getStreet_zero_candidates_and_total_branch
    (street zipCodeId language : String) :
    (∀ total : Int, total ≠ 1 →
      getStreet street zipCodeId language (some ⟨total, []⟩)
        = .error (.fostPlusApi "invalid_streetname")) ∧
    (∀ item rest nm, dictGet item.names language = .ok nm →
      getStreet street zipCodeId language (some ⟨1, item :: rest⟩)
        = .ok (item.id, nm)) ∧
    (∀ (total : Int) item nm, total ≠ 1 →
      dictGet item.names language = .ok nm →
      pyLower (pyStrip nm) ≠ pyLower (pyStrip street) →
      getStreet street zipCodeId language (some ⟨total, [item]⟩)
        = .error (.fostPlusApi "invalid_streetname")) := by
  refine ⟨?_, ?_, ?_⟩
  · intro total htotal
    simp [getStreet, htotal, findStreetMatch, bind, Except.bind]
  · intro item rest nm hnm
    simp [getStreet, listGet, bind, Except.bind, hnm]
  · intro total item nm htotal hnm hne
    simp [getStreet, htotal, findStreetMatch, bind, Except.bind, hnm, hne]

/-- Witness for C10: declared total 0 with no items raises the domain
error; declared total 1 with two items returns the first without any
match check; declared total 2 with one non-matching item raises. -/
theorem getStreet_zero_candidates_and_total_branch_witness :
    getStreet "rue neuve" "zip-1" "fr" (some ⟨0, []⟩)
      = .error (.fostPlusApi "invalid_streetname") ∧
    getStreet "rue neuve" "zip-1" "fr"
      (some ⟨1, [⟨"s1", [("fr", "Grand Place")]⟩,
        ⟨"s2", [("fr", "Rue Neuve")]⟩]⟩)
      = .ok ("s1", "Grand Place") ∧
    getStreet "rue neuve" "zip-1" "fr"
      (some ⟨2, [⟨"s1", [("fr", "Grand Place")]⟩]⟩)
      = .error (.fostPlusApi "invalid_streetname") := by
  have h := getStreet_zero_candidates_and_total_branch "rue neuve" "zip-1" "fr"
  exact ⟨h.1 0 (by decide),
    h.2.1 ⟨"s1", [("fr", "Grand Place")]⟩ [⟨"s2", [("fr", "Rue Neuve")]⟩]
      "Grand Place" rfl,
    h.2.2 2 ⟨"s1", [("fr", "Grand Place")]⟩ "Grand Place" (by decide) rfl
      (by decide)⟩

/-! ## Error kinds of the helper operations -/

/-- `l[i]` raises only `IndexError`. -/
theorem listGet_error {β : Type} (l : List β) (i : Nat) (e : PyErr)
    (h : listGet l i = .error e) : e = .indexError := by
  unfold listGet at h
  split at h
  · exact absurd h (by simp)
  · simpa using h.symm

/-- `int(s)` raises only `ValueError`. -/
theorem pyInt_error (s : String) (e : PyErr) (h : pyInt s = .error e) :
    e = .valueError := by
  unfold pyInt at h
  split at h
  · simpa using h.symm
  · split at h
    · exact absurd h (by simp)
    · simpa using h.symm
  · split at h
    · exact absurd h (by simp)
    · simpa using h.symm

/-- `date(y, m, d)` raises only `ValueError`. -/
theorem mkDate_error (y m d : Int) (e : PyErr)
    (h : mkDate y m d = .error e) : e = .valueError := by
  unfold mkDate at h
  split at h
  · exact absurd h (by simp)
  · simpa using h.symm

/-- `d[k]` raises only `KeyError`. -/
theorem dictGet_error {β : Type} (d : List (String × β)) (k : String)
    (e : PyErr) (h : dictGet d k = .error e) : e = .keyError := by
  unfold dictGet at h
  split at h
  · exact absurd h (by simp)
  · simpa using h.symm

/-! ## Shape of one `get_collections` loop iteration -/

/-- Each iteration of the `get_collections` loop either leaves the
defaultdict unchanged, raises an untyped (non-domain) error, or appends
one date not yet present to the entry of a fraction id from the
allow-list. -/
theorem processItem_cases (acc : List (String × List PyDate))
    (item : CollectionItem) :
    processItem acc item = .ok acc ∨
    (∃ e, processItem acc item = .error e ∧ e.isDomain = false) ∨
    (∃ fid dt, fid ∈ COLLECTION_TYPES ∧ dt ∉ dictGetD acc fid [] ∧
      processItem acc item
        = .ok (dictSet acc fid (dictGetD acc fid [] ++ [dt]))) := by
  unfold processItem
  split
  · exact Or.inl rfl
  split
  · exact Or.inl rfl
  next fid hfid =>
    split
    next hmem =>
      cases h0 : listGet (timestampParts item) 0 with
      | error e =>
        refine Or.inr (Or.inl ⟨e, ?_, ?_⟩)
        · simp [h0, bind, Except.bind]
        · rw [listGet_error _ _ _ h0]; rfl
      | ok p0 =>
        by_cases hp0 : p0 = ""
        · exact Or.inl (by simp [h0, bind, Except.bind, hp0])
        cases hy : pyInt p0 with
        | error e =>
          refine Or.inr (Or.inl ⟨e, ?_, ?_⟩)
          · simp [h0, bind, Except.bind, hp0, hy]
          · rw [pyInt_error _ _ hy]; rfl
        | ok y =>
          cases h1 : listGet (timestampParts item) 1 with
          | error e =>
            refine Or.inr (Or.inl ⟨e, ?_, ?_⟩)
            · simp [h0, bind, Except.bind, hp0, hy, h1]
            · rw [listGet_error _ _ _ h1]; rfl
          | ok p1 =>
            cases hm : pyInt p1 with
            | error e =>
              refine Or.inr (Or.inl ⟨e, ?_, ?_⟩)
              · simp [h0, bind, Except.bind, hp0, hy, h1, hm]
              · rw [pyInt_error _ _ hm]; rfl
            | ok m =>
              cases h2 : listGet (timestampParts item) 2 with
              | error e =>
                refine Or.inr (Or.inl ⟨e, ?_, ?_⟩)
                · simp [h0, bind, Except.bind, hp0, hy, h1, hm, h2]
                · rw [listGet_error _ _ _ h2]; rfl
              | ok p2 =>
                cases hd : pyInt p2 with
                | error e =>
                  refine Or.inr (Or.inl ⟨e, ?_, ?_⟩)
                  · simp [h0, bind, Except.bind, hp0, hy, h1, hm, h2, hd]
                  · rw [pyInt_error _ _ hd]; rfl
                | ok dnum =>
                  cases hdate : mkDate y m dnum with
                  | error e =>
                    refine Or.inr (Or.inl ⟨e, ?_, ?_⟩)
                    · simp [h0, bind, Except.bind, hp0, hy, h1, hm, h2, hd,
                        hdate]
                    · rw [mkDate_error _ _ _ _ hdate]; rfl
                  | ok dt =>
                    by_cases hin : dt ∈ dictGetD acc fid []
                    · exact Or.inl (by
                        simp [h0, bind, Except.bind, hp0, hy, h1, hm, h2,
                          hd, hdate, hin])
                    · refine Or.inr (Or.inr ⟨fid, dt, hmem, hin, ?_⟩)
                      simp [h0, bind, Except.bind, hp0, hy, h1, hm, h2, hd,
                        hdate, hin]
    · exact Or.inl rfl

/-- Membership after a dict update: the new binding or an old one. -/
theorem mem_dictSet {κ β : Type} [DecidableEq κ] (d : List (κ × β))
    (k : κ) (v : β) (kv : κ × β) (h : kv ∈ dictSet d k v) :
    kv = (k, v) ∨ kv ∈ d := by
  induction d with
  | nil => simpa [dictSet] using h
  | cons hd tl ih =>
    unfold dictSet at h
    split at h
    · rcases List.mem_cons.1 h with h | h
      · exact Or.inl h
      · exact Or.inr (List.mem_cons_of_mem hd h)
    · rcases List.mem_cons.1 h with h | h
      · exact Or.inr (h ▸ List.mem_cons_self hd tl)
      · rcases ih h with h | h
        · exact Or.inl h
        · exact Or.inr (List.mem_cons_of_mem hd h)

/-- A default dict read returns a value bound in the dict, or the default. -/
theorem dictGetD_mem_or_default {β : Type} (d : List (String × β))
    (k : String) (dflt : β) :
    (k, dictGetD d k dflt) ∈ d ∨ dictGetD d k dflt = dflt := by
  unfold dictGetD
  split
  next kv hkv =>
    left
    have hmem := List.mem_of_find?_eq_some hkv
    have hkey : kv.1 = k := by simpa using List.find?_some hkv
    rw [show (k, kv.2) = kv from by rw [← hkey]]
    exact hmem
  next => right; rfl

/-- The `get_collections` loop preserves duplicate-freeness of every
per-fraction date list. -/
theorem processCollections_nodup (items : List CollectionItem) :
    ∀ acc d, processCollections acc items = .ok d →
      (∀ kv ∈ acc, kv.2.Nodup) → ∀ kv ∈ d, kv.2.Nodup := by
  induction items with
  | nil =>
    intro acc d h hinv
    have hd : acc = d := by simpa [processCollections] using h
    exact hd ▸ hinv
  | cons item rest ih =>
    intro acc d h hinv
    rcases processItem_cases acc item with hok | ⟨e, he, _⟩ | ⟨fid, dt, _, hnin, hset⟩
    · rw [processCollections, hok] at h
      exact ih acc d (by simpa [bind, Except.bind] using h) hinv
    · rw [processCollections, he] at h
      exact absurd h (by simp [bind, Except.bind])
    · rw [processCollections, hset] at h
      refine ih _ d (by simpa [bind, Except.bind] using h) ?_
      intro kv hkv
      rcases mem_dictSet _ _ _ _ hkv with hkv | hkv
      · subst hkv
        have hnd : (dictGetD acc fid []).Nodup := by
          rcases dictGetD_mem_or_default acc fid [] with hmem | hdef
          · exact hinv _ hmem
          · rw [hdef]; exact List.nodup_nil
        simp only [List.nodup_append, List.nodup_singleton]
        exact ⟨hnd, by simp, by simpa [List.disjoint_singleton] using hnin⟩
      · exact hinv kv hkv

/-- The `get_collections` loop only ever binds fraction ids from the
allow-list. -/
theorem processCollections_keys (items : List CollectionItem) :
    ∀ acc d, processCollections acc items = .ok d →
      (∀ kv ∈ acc, kv.1 ∈ COLLECTION_TYPES) →
      ∀ kv ∈ d, kv.1 ∈ COLLECTION_TYPES := by
  induction items with
  | nil =>
    intro acc d h hinv
    have hd : acc = d := by simpa [processCollections] using h
    exact hd ▸ hinv
  | cons item rest ih =>
    intro acc d h hinv
    rcases processItem_cases acc item with hok | ⟨e, he, _⟩ | ⟨fid, dt, hfid, _, hset⟩
    · rw [processCollections, hok] at h
      exact ih acc d (by simpa [bind, Except.bind] using h) hinv
    · rw [processCollections, he] at h
      exact absurd h (by simp [bind, Except.bind])
    · rw [processCollections, hset] at h
      refine ih _ d (by simpa [bind, Except.bind] using h) ?_
      intro kv hkv
      rcases mem_dictSet _ _ _ _ hkv with hkv | hkv
      · subst hkv; exact hfid
      · exact hinv kv hkv

/-- The `get_collections` loop never raises the typed domain error. -/
theorem processCollections_not_domain (items : List CollectionItem) :
    ∀ acc e, processCollections acc items = .error e → e.isDomain = false := by
  induction items with
  | nil => intro acc e h; exact absurd h (by simp [processCollections])
  | cons item rest ih =>
    intro acc e h
    rcases processItem_cases acc item with hok | ⟨e2, he, hdom⟩ | ⟨fid, dt, _, _, hset⟩
    · rw [processCollections, hok] at h
      exact ih acc e (by simpa [bind, Except.bind] using h)
    · rw [processCollections, he] at h
      have : e2 = e := by simpa [bind, Except.bind] using h
      exact this ▸ hdom
    · rw [processCollections, hset] at h
      exact ih _ e (by simpa [bind, Except.bind] using h)

/-- The `get_fractions` comprehension only ever binds logo ids from the
allow-list. -/
theorem fractionsDict_keys (language : String) (items : List CollectionItem) :
    ∀ acc d, fractionsDict language items acc = .ok d →
      (∀ kv ∈ acc, kv.1 ∈ COLLECTION_TYPES) →
      ∀ kv ∈ d, kv.1 ∈ COLLECTION_TYPES := by
  induction items with
  | nil =>
    intro acc d h hinv
    have hd : acc = d := by simpa [fractionsDict] using h
    exact hd ▸ hinv
  | cons f rest ih =>
    intro acc d h hinv
    cases hf : f.fraction with
    | none =>
      simp only [fractionsDict, hf] at h
      exact absurd h (by simp)
    | some fr =>
      cases hl : fr.logo with
      | none =>
        simp only [fractionsDict, hf, hl] at h
        exact ih acc d h hinv
      | some lg =>
        cases hi : lg.id with
        | none =>
          simp only [fractionsDict, hf, hl, hi] at h
          exact absurd h (by simp)
        | some i =>
          by_cases hmem : i ∈ COLLECTION_TYPES
          · simp only [fractionsDict, hf, hl, hi, if_pos hmem] at h
            cases hn : dictGet fr.name language with
            | error e =>
              rw [hn] at h
              exact absurd h (by simp [bind, Except.bind])
            | ok nm =>
              rw [hn] at h
              simp only [bind, Except.bind] at h
              refine ih _ d h ?_
              intro kv hkv
              rcases mem_dictSet _ _ _ _ hkv with hkv | hkv
              · subst hkv; exact hmem
              · exact hinv kv hkv
          · simp only [fractionsDict, hf, hl, hi, if_neg hmem] at h
            exact ih acc d h hinv

/-- C8: the calendar `get_collections` returns never contains a date twice
for the same fraction — each per-fraction date list is duplicate-free,
because a date is appended only when not already present (exact-date
deduplication of the input records, whatever they repeat). -/
theorem getCollections_dates_deduplicated
    (response : Option (PageResponse CollectionItem))
    (d : List (String × List PyDate)) (h : getCollections response = .ok d) :
    ∀ kv ∈ d, kv.2.Nodup := by
  cases response with
  | none => exact absurd h (by simp [getCollections])
  | some r =>
    cases hi : r.items with
    | none =>
      rw [getCollections, hi] at h
      exact absurd h (by simp)
    | some items =>
      rw [getCollections, hi] at h
      exact processCollections_nodup items [] d h (by simp)

/-- Witness for C8: the same record (fraction "gft", 2024-01-08) appearing
twice in the response yields the date exactly once, a duplicate-free list. -/
theorem getCollections_dates_deduplicated_witness :
    getCollections (some ⟨some
      [⟨none, some ⟨some ⟨some "gft"⟩, "green", [("fr", "gft")]⟩,
        some "2024-01-08T07:00:00"⟩,
       ⟨none, some ⟨some ⟨some "gft"⟩, "green", [("fr", "gft")]⟩,
        some "2024-01-08T07:00:00"⟩], some 1⟩)
      = .ok [("gft", [⟨2024, 1, 8⟩])] ∧
    ([(⟨2024, 1, 8⟩ : PyDate)]).Nodup := by
  constructor
  · rfl
  · exact getCollections_dates_deduplicated
      (some ⟨some
        [⟨none, some ⟨some ⟨some "gft"⟩, "green", [("fr", "gft")]⟩,
          some "2024-01-08T07:00:00"⟩,
         ⟨none, some ⟨some ⟨some "gft"⟩, "green", [("fr", "gft")]⟩,
          some "2024-01-08T07:00:00"⟩], some 1⟩)
      [("gft", [⟨2024, 1, 8⟩])] rfl ("gft", [⟨2024, 1, 8⟩]) (by simp)

/-- C9: every fraction id appearing as a key in the output of
`get_fractions` or `get_collections` belongs to the allow-list
`COLLECTION_TYPES`; a `get_collections` record whose fraction logo id is
missing or outside the allow-list leaves the calendar unchanged, and a
`get_fractions` record without a logo, or with a logo id outside the
allow-list, is skipped by the comprehension. -/
theorem output_fraction_keys_in_allow_list (language : String) :
    (∀ items d, getFractions language items = .ok d →
      ∀ kv ∈ d, kv.1 ∈ COLLECTION_TYPES) ∧
    (∀ response d, getCollections response = .ok d →
      ∀ kv ∈ d, kv.1 ∈ COLLECTION_TYPES) ∧
    (∀ acc item, (fractionIdOf item = none ∨
        ∃ fid, fractionIdOf item = some fid ∧ fid ∉ COLLECTION_TYPES) →
      processItem acc item = .ok acc) ∧
    (∀ acc f rest fr, f.fraction = some fr → fr.logo = none →
      fractionsDict language (f :: rest) acc
        = fractionsDict language rest acc) ∧
    (∀ acc f rest fr lg i, f.fraction = some fr → fr.logo = some lg →
      lg.id = some i → i ∉ COLLECTION_TYPES →
      fractionsDict language (f :: rest) acc
        = fractionsDict language rest acc) := by
  refine ⟨?_, ?_, ?_, ?_, ?_⟩
  · intro items d h
    rw [getFractions] at h
    exact fractionsDict_keys language items [] d h (by simp)
  · intro response d h
    cases response with
    | none => exact absurd h (by simp [getCollections])
    | some r =>
      cases hi : r.items with
      | none =>
        rw [getCollections, hi] at h
        exact absurd h (by simp)
      | some items =>
        rw [getCollections, hi] at h
        exact processCollections_keys items [] d h (by simp)
  · intro acc item hyp
    unfold processItem
    split
    · rfl
    rcases hyp with hnone | ⟨fid, hfid, hnot⟩
    · rw [hnone]
    · simp only [hfid]
      rw [if_neg hnot]
  · intro acc f rest fr hf hl
    simp only [fractionsDict, hf, hl]
  · intro acc f rest fr lg i hf hl hi hnot
    simp only [fractionsDict, hf, hl, hi]
    rw [if_neg hnot]

/-- Witness for C9: the key produced by a "gft" record is in the
allow-list, and a record with the unrecognized logo id "unknown" leaves
the calendar unchanged. -/
theorem output_fraction_keys_in_allow_list_witness :
    ("gft" : String) ∈ COLLECTION_TYPES ∧
    processItem []
      ⟨none, some ⟨some ⟨some "unknown"⟩, "green", []⟩, some "2024-01-08"⟩
      = .ok [] := by
  have h := output_fraction_keys_in_allow_list "fr"
  constructor
  · exact h.1 [⟨none, some ⟨some ⟨some "gft"⟩, "green", [("fr", "gft")]⟩,
      some "2024-01-08T07:00:00"⟩] [("gft", ("green", "gft"))] rfl
      ("gft", ("green", "gft")) (by simp)
  · exact h.2.2.1 []
      ⟨none, some ⟨some ⟨some "unknown"⟩, "green", []⟩, some "2024-01-08"⟩
      (Or.inr ⟨"unknown", rfl, by decide⟩)

/-! ## `get_collections` and pagination (C3) -/

/-- Counterexample to C3: the server splits the window over two declared
pages — page 1 holds a valid "gft" record dated 2024-01-08, page 2 an
equally valid one dated 2024-01-15 — yet `get_collections`, which issues a
single request, returns a calendar carrying only the first page's date;
the paginated retrieval described by the spec would have carried both. -/
theorem getCollections_ignores_later_pages_counterexample :
    getCollectionsFromServer (fun p =>
      if p = 1 then some ⟨some [⟨none,
        some ⟨some ⟨some "gft"⟩, "green", [("fr", "gft")]⟩,
        some "2024-01-08T07:00:00"⟩], some 2⟩
      else if p = 2 then some ⟨some [⟨none,
        some ⟨some ⟨some "gft"⟩, "green", [("fr", "gft")]⟩,
        some "2024-01-15T07:00:00"⟩], some 2⟩
      else none)
      = .ok [("gft", [⟨2024, 1, 8⟩])] ∧
    getCollectionsPaginatedSpec (fun p =>
      if p = 1 then some ⟨some [⟨none,
        some ⟨some ⟨some "gft"⟩, "green", [("fr", "gft")]⟩,
        some "2024-01-08T07:00:00"⟩], some 2⟩
      else if p = 2 then some ⟨some [⟨none,
        some ⟨some ⟨some "gft"⟩, "green", [("fr", "gft")]⟩,
        some "2024-01-15T07:00:00"⟩], some 2⟩
      else none) 2
      = some (.ok [("gft", [⟨2024, 1, 8⟩, ⟨2024, 1, 15⟩])]) ∧
    (⟨2024, 1, 15⟩ : PyDate) ∉ dictGetD
      [("gft", [(⟨2024, 1, 8⟩ : PyDate)])] "gft" [] := by
  refine ⟨rfl, rfl, by decide⟩

/-- C3 as amended: `get_collections` issues a single request, so under a
well-formed `P`-page split of the window its calendar is computed from the
first page's records alone, whereas the paginated retrieval the spec
describes would process the concatenation of the records of all `P`
pages. -/
theorem getCollections_processes_first_page_only
    (server : Nat → Option (PageResponse CollectionItem))
    (P fuel : Nat) (itemsOf : Nat → List CollectionItem)
    (hP : 1 ≤ P) (hfuel : P ≤ fuel)
    (hwf : ∀ p, 1 ≤ p → p ≤ P →
      server p = some ⟨some (itemsOf p), some (P : Int)⟩) :
    getCollectionsFromServer server = processCollections [] (itemsOf 1) ∧
    getCollectionsPaginatedSpec server fuel
      = some (processCollections [] ((List.range' 1 P).flatMap itemsOf)) := by
  constructor
  · rw [getCollectionsFromServer, hwf 1 le_rfl hP, getCollections]
  · have h := loadAllAux_run server P itemsOf hwf fuel 1 [] [] le_rfl hP
      (by omega)
    rw [show P - 1 + 1 = P from by omega] at h
    rw [getCollectionsPaginatedSpec, loadAll, h]
    rfl

/-- Witness for C3 as amended: on the concrete two-page server, the single
request yields only the 2024-01-08 date while the spec-described paginated
retrieval yields both dates. -/
theorem getCollections_processes_first_page_only_witness :
    getCollectionsFromServer (fun p =>
      if p = 1 then some ⟨some [⟨none,
        some ⟨some ⟨some "pmd"⟩, "blue", [("fr", "pmd")]⟩,
        some "2024-02-05T07:00:00"⟩], some 2⟩
      else if p = 2 then some ⟨some [⟨none,
        some ⟨some ⟨some "pmd"⟩, "blue", [("fr", "pmd")]⟩,
        some "2024-02-12T07:00:00"⟩], some 2⟩
      else none)
      = .ok [("pmd", [⟨2024, 2, 5⟩])] ∧
    getCollectionsPaginatedSpec (fun p =>
      if p = 1 then some ⟨some [⟨none,
        some ⟨some ⟨some "pmd"⟩, "blue", [("fr", "pmd")]⟩,
        some "2024-02-05T07:00:00"⟩], some 2⟩
      else if p = 2 then some ⟨some [⟨none,
        some ⟨some ⟨some "pmd"⟩, "blue", [("fr", "pmd")]⟩,
        some "2024-02-12T07:00:00"⟩], some 2⟩
      else none) 2
      = some (.ok [("pmd", [⟨2024, 2, 5⟩, ⟨2024, 2, 12⟩])]) := by
  have h := getCollections_processes_first_page_only (fun p =>
      if p = 1 then some ⟨some [⟨none,
        some ⟨some ⟨some "pmd"⟩, "blue", [("fr", "pmd")]⟩,
        some "2024-02-05T07:00:00"⟩], some 2⟩
      else if p = 2 then some ⟨some [⟨none,
        some ⟨some ⟨some "pmd"⟩, "blue", [("fr", "pmd")]⟩,
        some "2024-02-12T07:00:00"⟩], some 2⟩
      else none) 2 2
    (fun p =>
      if p = 1 then [⟨none,
        some ⟨some ⟨some "pmd"⟩, "blue", [("fr", "pmd")]⟩,
        some "2024-02-05T07:00:00"⟩]
      else [⟨none,
        some ⟨some ⟨some "pmd"⟩, "blue", [("fr", "pmd")]⟩,
        some "2024-02-12T07:00:00"⟩])
    (by omega) (by omega)
    (by intro p h1 h2; interval_cases p <;> rfl)
  exact ⟨h.1.trans rfl, h.2.trans rfl⟩

/-! ## Error taxonomy of the operations (C1) -/

/-- The inner `get_zip_code` loop raises only `KeyError`. -/
theorem zipNamePairs_error (language id code : String)
    (names : List (List (String × String))) :
    ∀ e, zipNamePairs language id code names = .error e → e = .keyError := by
  induction names with
  | nil => intro e h; exact absurd h (by simp [zipNamePairs])
  | cons nm nms ih =>
    intro e h
    rw [zipNamePairs] at h
    cases hn : dictGet nm language with
    | error e2 =>
      rw [hn] at h
      simp only [bind, Except.bind] at h
      exact (by simpa using h : e2 = e) ▸ dictGet_error _ _ _ hn
    | ok n =>
      rw [hn] at h
      simp only [bind, Except.bind] at h
      cases ht : zipNamePairs language id code nms with
      | error e2 =>
        rw [ht] at h
        exact (by simpa using h : e2 = e) ▸ ih e2 ht
      | ok tl => rw [ht] at h; exact absurd h (by simp)

/-- The outer `get_zip_code` loop raises only `KeyError`. -/
theorem zipCodePairs_error (language : String) (items : List ZipCodeItem) :
    ∀ e, zipCodePairs language items = .error e → e = .keyError := by
  induction items with
  | nil => intro e h; exact absurd h (by simp [zipCodePairs])
  | cons item rest ih =>
    intro e h
    rw [zipCodePairs] at h
    cases hh : zipNamePairs language item.id item.code item.names with
    | error e2 =>
      rw [hh] at h
      simp only [bind, Except.bind] at h
      exact (by simpa using h : e2 = e) ▸ zipNamePairs_error _ _ _ _ e2 hh
    | ok hd =>
      rw [hh] at h
      simp only [bind, Except.bind] at h
      cases ht : zipCodePairs language rest with
      | error e2 =>
        rw [ht] at h
        exact (by simpa using h : e2 = e) ▸ ih e2 ht
      | ok tl => rw [ht] at h; exact absurd h (by simp)

/-- One iteration of the `get_recycling_parks` loop raises only
`KeyError`. -/
theorem processParkItem_error (language : String)
    (acc : List (Option String × RecyclingPark)) (item : ParkItem) :
    ∀ e, processParkItem language acc item = .error e → e = .keyError := by
  intro e h
  rw [processParkItem] at h
  cases hn : dictGet item.displayName language with
  | error e2 =>
    rw [hn] at h
    simp only [bind, Except.bind] at h
    exact (by simpa using h : e2 = e) ▸ dictGet_error _ _ _ hn
  | ok n => rw [hn] at h; exact absurd h (by simp [bind, Except.bind])

/-- The `get_recycling_parks` loop raises only `KeyError`. -/
theorem processParks_error (language : String) (items : List ParkItem) :
    ∀ acc e, processParks language acc items = .error e → e = .keyError := by
  induction items with
  | nil => intro acc e h; exact absurd h (by simp [processParks])
  | cons item rest ih =>
    intro acc e h
    rw [processParks] at h
    cases hp : processParkItem language acc item with
    | error e2 =>
      rw [hp] at h
      simp only [bind, Except.bind] at h
      exact (by simpa using h : e2 = e) ▸ processParkItem_error _ _ _ e2 hp
    | ok acc2 =>
      rw [hp] at h
      simp only [bind, Except.bind] at h
      exact ih acc2 e h

/-- The street match search raises only `KeyError`. -/
theorem findStreetMatch_error (language query : String)
    (items : List StreetItem) :
    ∀ e, findStreetMatch language query items = .error e → e = .keyError := by
  induction items with
  | nil => intro e h; exact absurd h (by simp [findStreetMatch])
  | cons i rest ih =>
    intro e h
    rw [findStreetMatch] at h
    cases hn : dictGet i.names language with
    | error e2 =>
      rw [hn] at h
      simp only [bind, Except.bind] at h
      exact (by simpa using h : e2 = e) ▸ dictGet_error _ _ _ hn
    | ok n =>
      rw [hn] at h
      simp only [bind, Except.bind] at h
      split at h
      · exact absurd h (by simp)
      · exact ih e h

/-- Counterexample to C1: a transport failing both attempts yields an
absent `__get` result, and `get_zip_code` applied to it raises a
`TypeError` (subscripting `None`) instead of degrading to empty output. -/
theorem absent_response_raises_counterexample :
    (pyGet (fun _ => ((500 : Int), (⟨none⟩ : ZipResponse)))).1 = none ∧
    getZipCode "fr" (pyGet (fun _ => ((500 : Int), (⟨none⟩ : ZipResponse)))).1
      = .error .typeError :=
  ⟨rfl, rfl⟩

/-- C1 as amended: the only typed domain error raised anywhere is
`get_street`'s failed disambiguation (with code "invalid_streetname") —
the other operations never produce a `FostPlusApiException`; but an
absent response after two failed request attempts does not degrade: it
makes `get_zip_code`, `get_street`, `get_recycling_parks` and
`get_collections` raise untyped interpreter errors, and a record whose
non-empty timestamp is malformed makes `get_collections` raise
`ValueError`; only the paginated loader (an absent first page yields the
empty list) and records whose timestamp starts with an empty segment
degrade silently. -/
theorem only_street_disambiguation_raises_domain_error :
    (∀ (language : String) result e, getZipCode language result = .error e →
      e.isDomain = false) ∧
    (∀ (language : String) response e,
      getRecyclingParks language response = .error e → e.isDomain = false) ∧
    (∀ response e, getCollections response = .error e →
      e.isDomain = false) ∧
    (∀ (street z language : String) result c,
      getStreet street z language result = .error (.fostPlusApi c) →
      c = "invalid_streetname") ∧
    (∀ t : Nat → Int × ZipResponse, (t 0).1 ≠ 200 → (t 1).1 ≠ 200 →
      (pyGet t).1 = none) ∧
    (∀ language : String, getZipCode language none = .error .typeError) ∧
    (∀ street z language : String,
      getStreet street z language none = .error .typeError) ∧
    (∀ language : String,
      getRecyclingParks language none = .error .attributeError) ∧
    (getCollections none = .error .typeError) ∧
    (∀ (fetch : Nat → Option (PageResponse CollectionItem)) fuel,
      1 ≤ fuel → fetch 1 = none → loadAll fetch fuel = some []) ∧
    (∀ acc item, listGet (timestampParts item) 0 = .ok "" →
      processItem acc item = .ok acc) ∧
    (processItem []
      ⟨none, some ⟨some ⟨some "gft"⟩, "green", []⟩, some "garbage"⟩
      = .error .valueError) := by
  refine ⟨?_, ?_, ?_, ?_, ?_, ?_, ?_, ?_, ?_, ?_, ?_, ?_⟩
  · intro language result e h
    cases result with
    | none =>
      rw [getZipCode] at h
      exact ((by simpa using h : PyErr.typeError = e) ▸ rfl : e.isDomain = false)
    | some r =>
      cases hi : r.items with
      | none =>
        rw [getZipCode, hi] at h
        exact ((by simpa using h : PyErr.keyError = e) ▸ rfl : e.isDomain = false)
      | some items =>
        rw [getZipCode, hi] at h
        rw [zipCodePairs_error language items e h]
        rfl
  · intro language response e h
    cases response with
    | none =>
      rw [getRecyclingParks] at h
      exact ((by simpa using h : PyErr.attributeError = e) ▸ rfl
        : e.isDomain = false)
    | some r =>
      rw [getRecyclingParks] at h
      rw [processParks_error language (r.items.getD []) [] e h]
      rfl
  · intro response e h
    cases response with
    | none =>
      rw [getCollections] at h
      exact ((by simpa using h : PyErr.typeError = e) ▸ rfl : e.isDomain = false)
    | some r =>
      cases hi : r.items with
      | none =>
        rw [getCollections, hi] at h
        exact ((by simpa using h : PyErr.keyError = e) ▸ rfl : e.isDomain = false)
      | some items =>
        rw [getCollections, hi] at h
        exact processCollections_not_domain items [] e h
  · intro street z language result c h
    cases result with
    | none => exact absurd h (by simp [getStreet])
    | some r =>
      rw [getStreet] at h
      split at h
      · cases hm : findStreetMatch language (pyLower (pyStrip street)) r.items with
        | error e2 =>
          rw [hm] at h
          simp only [bind, Except.bind] at h
          have he2 : e2 = PyErr.fostPlusApi c := by simpa using h
          exact absurd (he2 ▸ findStreetMatch_error language _ r.items e2 hm)
            (by simp)
        | ok found =>
          rw [hm] at h
          simp only [bind, Except.bind] at h
          cases found with
          | none => exact (by simpa using h : "invalid_streetname" = c).symm
          | some item =>
            dsimp only at h
            cases hn : dictGet item.names language with
            | error e2 =>
              rw [hn] at h
              simp only [bind, Except.bind] at h
              have he2 : e2 = PyErr.fostPlusApi c := by simpa using h
              exact absurd (he2 ▸ dictGet_error _ _ e2 hn) (by simp)
            | ok n => rw [hn] at h; exact absurd h (by simp [bind, Except.bind])
      · cases hfirst : listGet r.items 0 with
        | error e2 =>
          rw [hfirst] at h
          simp only [bind, Except.bind] at h
          have he2 : e2 = PyErr.fostPlusApi c := by simpa using h
          exact absurd (he2 ▸ listGet_error _ _ e2 hfirst) (by simp)
        | ok first =>
          rw [hfirst] at h
          simp only [bind, Except.bind] at h
          cases hn : dictGet first.names language with
          | error e2 =>
            rw [hn] at h
            simp only [bind, Except.bind] at h
            have he2 : e2 = PyErr.fostPlusApi c := by simpa using h
            exact absurd (he2 ▸ dictGet_error _ _ e2 hn) (by simp)
          | ok n => rw [hn] at h; exact absurd h (by simp [bind, Except.bind])
  · intro t h0 h1
    simp [pyGet, requestLoop, h0, h1]
  · intro language; rfl
  · intro street z language; rfl
  · intro language; rfl
  · rfl
  · intro fetch fuel hfuel hf
    cases fuel with
    | zero => omega
    | succ fuel => simp [loadAll, loadAllAux, hf]
  · intro acc item h
    unfold processItem
    split
    · rfl
    cases hfi : fractionIdOf item with
    | none => rfl
    | some fid =>
      simp only [hfi]
      by_cases hmem : fid ∈ COLLECTION_TYPES
      · rw [if_pos hmem]
        simp [h, bind, Except.bind]
      · rw [if_neg hmem]
  · rfl

/-- Witness for C1 as amended: the `TypeError` of an absent `get_zip_code`
response is not the typed domain error; an absent first page makes the
loader return the empty list; a record whose timestamp is empty leaves the
calendar untouched. -/
theorem only_street_disambiguation_raises_domain_error_witness :
    PyErr.isDomain .typeError = false ∧
    loadAll (fun _ => (none : Option (PageResponse CollectionItem))) 3
      = some [] ∧
    processItem [("gft", [⟨2024, 1, 8⟩])]
      ⟨none, some ⟨some ⟨some "gft"⟩, "green", []⟩, some ""⟩
      = .ok [("gft", [⟨2024, 1, 8⟩])] := by
  have h := only_street_disambiguation_raises_domain_error
  refine ⟨?_, ?_, ?_⟩
  · exact h.1 "fr" none .typeError rfl
  · exact h.2.2.2.2.2.2.2.2.2.1 (fun _ => none) 3 (by omega) rfl
  · exact h.2.2.2.2.2.2.2.2.2.2.1 [("gft", [⟨2024, 1, 8⟩])]
      ⟨none, some ⟨some ⟨some "gft"⟩, "green", []⟩, some ""⟩ rfl

end RecycleApp
